import Mathlib

/-!
# CognitCode — verification of the analyzer, parser wrapper, formatter and
# environment-key handling

Shallow embedding of the Python sources under `src/`:
* `analyzer.py`  — `CodeIssue`, `CodeSmellVisitor`, `run_analysis`
* `parser.py`    — `generate_ast_from_code`
* `formatter.py` — `format_issues_to_json` (the dict/JSON-value construction)
* `ai_core.py`   — `_ensure_google_api_key_from_gemini`, `configure_llm_service`
* `app.py`       — the backend pipeline of `main` up to the analysis stage
-/

namespace CognitCode

/-- The value carried by a Python `ast.Constant` node.  Floats, complex
numbers and bytes are carried by their Python `str` rendering, which
identifies them uniquely; the analyzer only inspects the runtime class of the
value and interpolates `str(value)` into a message. -/
inductive PyConstValue : Type where
  | pyBool (b : Bool)
  | pyInt (n : Int)
  | pyFloat (rendered : String)
  | pyComplex (rendered : String)
  | pyStr (s : String)
  | pyBytes (rendered : String)
  | pyNone
  | pyEllipsis
  deriving Repr, DecidableEq

/-- Python `isinstance(value, (int, float))` as used at `analyzer.py:76`.
In Python, `bool` is a subclass of `int`, so booleans satisfy this test. -/
def PyConstValue.isinstanceIntFloat : PyConstValue → Bool
  | .pyBool _ => true
  | .pyInt _ => true
  | .pyFloat _ => true
  | _ => false

/-- Python `str(value)` for a constant value, as interpolated by the f-string
in `visit_Constant`. -/
def PyConstValue.pyStrOf : PyConstValue → String
  | .pyBool true => "True"
  | .pyBool false => "False"
  | .pyInt n => toString n
  | .pyFloat r => r
  | .pyComplex r => r
  | .pyStr s => s
  | .pyBytes r => r
  | .pyNone => "None"
  | .pyEllipsis => "Ellipsis"

/-- A Python abstract-syntax-tree node, restricted to the structure the
analyzer observes.  `functionDef` is `ast.FunctionDef`: `pre` are the child
nodes of the fields preceding `body` in the AST field order (`args`), `body`
is the statement list whose length `visit_FunctionDef` measures, `post` are
the child nodes of the fields following `body` (`decorator_list`, `returns`).
`constant` is `ast.Constant` (its value is not an AST node, so it has no node
children).  Every other node kind is `other`, carrying its class name and its
child nodes in field order; `ast.NodeVisitor` treats all of those uniformly
through `generic_visit`. -/
inductive PyNode : Type where
  | functionDef (lineno : Nat) (name : String)
      (pre : List PyNode) (body : List PyNode) (post : List PyNode)
  | constant (lineno : Nat) (value : PyConstValue)
  | other (kind : String) (children : List PyNode)

/-- `CodeIssue` from `analyzer.py:16`: one detected code smell. -/
structure CodeIssue : Type where
  line_number : Nat
  issue_code : String
  description : String
  deriving Repr, DecidableEq

/-- The issue built by `visit_FunctionDef` when `len(node.body) > 20`. -/
def funcTooLongIssue (lineno : Nat) (name : String) (bodyLen : Nat) : CodeIssue :=
  { line_number := lineno
    issue_code := "FUNC_TOO_LONG"
    description := "Function '" ++ name ++ "' has " ++ toString bodyLen ++
      " statements, exceeding the threshold of 20." }

/-- The issue built by `visit_Constant` when the value is an `int` or
`float` instance. -/
def magicNumberIssue (lineno : Nat) (value : PyConstValue) : CodeIssue :=
  { line_number := lineno
    issue_code := "MAGIC_NUMBER"
    description := "The constant '" ++ value.pyStrOf ++
      "' is a magic number; consider defining it as a named constant." }

mutual
/-- `CodeSmellVisitor.visit` on one node, threading the `self.issues`
accumulator.  `visit` dispatches to `visit_FunctionDef` on `ast.FunctionDef`
and to `visit_Constant` on `ast.Constant`; every other node falls through to
`generic_visit`, which visits the child nodes in field order.  Both special
visitors append their issue (when their test fires) before calling
`generic_visit` on their own children; for `functionDef` the children in
field order are `pre ++ body ++ post`, and `visitAll post (visitAll body
(visitAll pre issues))` is that left-to-right sweep (see
`visitAll_concat`). -/
def visit : PyNode → List CodeIssue → List CodeIssue
  | .functionDef lineno name pre body post, issues =>
      visitAll post (visitAll body (visitAll pre
        (if body.length > 20
         then issues ++ [funcTooLongIssue lineno name body.length]
         else issues)))
  | .constant lineno value, issues =>
      if value.isinstanceIntFloat then issues ++ [magicNumberIssue lineno value]
      else issues
  | .other _ children, issues => visitAll children issues

/-- Visiting a list of child nodes left to right (`generic_visit`). -/
def visitAll : List PyNode → List CodeIssue → List CodeIssue
  | [], issues => issues
  | n :: ns, issues => visitAll ns (visit n issues)
end

/-- `run_analysis` from `analyzer.py:88`: a fresh visitor (empty issue list)
traverses the tree and the collected issues are returned. -/
def run_analysis (ast_tree : PyNode) : List CodeIssue :=
  visit ast_tree []

mutual
/-- The issues contributed by one node and its subtree, written as output
instead of accumulator-threading; related to `visit` by `visit_eq`. -/
def issuesOf : PyNode → List CodeIssue
  | .functionDef lineno name pre body post =>
      (if body.length > 20 then [funcTooLongIssue lineno name body.length]
       else []) ++
        (issuesOfList pre ++ issuesOfList body ++ issuesOfList post)
  | .constant lineno value =>
      if value.isinstanceIntFloat then [magicNumberIssue lineno value] else []
  | .other _ children => issuesOfList children

/-- The issues contributed by a list of nodes, left to right. -/
def issuesOfList : List PyNode → List CodeIssue
  | [] => []
  | n :: ns => issuesOf n ++ issuesOfList ns
end

/-- The issues `visit` appends at a node itself, before it recurses into the
children: the `FUNC_TOO_LONG` check of `visit_FunctionDef` and the
`MAGIC_NUMBER` check of `visit_Constant`. -/
def localIssues : PyNode → List CodeIssue
  | .functionDef lineno name _ body _ =>
      if body.length > 20 then [funcTooLongIssue lineno name body.length]
      else []
  | .constant lineno value =>
      if value.isinstanceIntFloat then [magicNumberIssue lineno value] else []
  | .other _ _ => []

/-- The child nodes of a node in AST field order, as `generic_visit`
enumerates them. -/
def childNodes : PyNode → List PyNode
  | .functionDef _ _ pre body post => pre ++ body ++ post
  | .constant _ _ => []
  | .other _ children => children

mutual
/-- Depth-first pre-order listing of every node reachable from a node:
the node itself first, then the pre-order listings of its children in
field order. -/
def preorder : PyNode → List PyNode
  | .functionDef lineno name pre body post =>
      .functionDef lineno name pre body post ::
        (preorderList pre ++ preorderList body ++ preorderList post)
  | .constant lineno value => [.constant lineno value]
  | .other kind children => .other kind children :: preorderList children

/-- Pre-order listing of a list of roots, left to right. -/
def preorderList : List PyNode → List PyNode
  | [] => []
  | n :: ns => preorder n ++ preorderList ns
end

/-- `n` is reachable from `t` by descending through child links: the nodes
`ast.NodeVisitor` can reach from the root. -/
inductive Subnode : PyNode → PyNode → Prop where
  | refl (t : PyNode) : Subnode t t
  | step {n c t : PyNode} : c ∈ childNodes t → Subnode n c → Subnode n t

/-- The numeric constants of the tree, in pre-order: the line and value of
every `constant` node whose value satisfies `isinstance(value, (int,
float))` — in Python this includes `bool` values, since `bool` is a subclass
of `int`. -/
def numericConstants (t : PyNode) : List (Nat × PyConstValue) :=
  (preorder t).filterMap fun n =>
    match n with
    | .constant lineno value =>
        if value.isinstanceIntFloat then some (lineno, value) else none
    | _ => none

/-- The function definitions of the tree, in pre-order: line, name and
immediate-statement count of every `functionDef` node. -/
def functionDefs (t : PyNode) : List (Nat × String × Nat) :=
  (preorder t).filterMap fun n =>
    match n with
    | .functionDef lineno name _ body _ => some (lineno, name, body.length)
    | _ => none

/-- The line number a node carries in this embedding, when the analyzer can
read one from it. -/
def nodeLineno : PyNode → Option Nat
  | .functionDef lineno _ _ _ _ => some lineno
  | .constant lineno _ => some lineno
  | .other _ _ => none

/-- Every line number readable from the tree, in pre-order. -/
def treeLinenos (t : PyNode) : List Nat :=
  (preorder t).filterMap nodeLineno

/-- The data the `except SyntaxError as e` handler of
`generate_ast_from_code` reads from the exception raised by `ast.parse`:
the offending line number `e.lineno`. -/
structure ParseError : Type where
  lineno : Nat
  deriving Repr, DecidableEq

/-- `generate_ast_from_code` from `parser.py:15`, parametric in `parse`:
the behavior of the standard library's `ast.parse`, which returns a tree or
raises a `SyntaxError` carrying a line number.  On success the pair
`(tree, None)` is returned; on a `SyntaxError` the pair `(None, message)`
with the f-string message.  The only exception handled — and the only one
`ast.parse` raises on malformed input — is `SyntaxError`, and both branches
return normally, so the function never lets a `SyntaxError` escape to its
caller; totality of this definition reflects that. -/
def generate_ast_from_code (parse : String → Except ParseError PyNode)
    (code_string : String) : Option PyNode × Option String :=
  match parse code_string with
  | .ok parsed_ast => (some parsed_ast, none)
  | .error e =>
      (none, some ("Error: Invalid Python syntax at line " ++ toString e.lineno))

/-- The backend pipeline of `app.py:main` (lines 196-204) through its
analysis stage, parametric in the analysis function; the source passes
`run_analysis`, and keeping it a parameter lets the theorems state that on a
parse error the result does not depend on the analyzer at all, i.e. the
detector is never invoked.  `raise ValueError(error)` is modelled as
`Except.error`: `main` catches every exception and surfaces its message.
The error string produced by `generate_ast_from_code` is never empty (it
starts with `Error:`), so Python's truthiness test `if error:` agrees with
matching on `some`; the `(none, none)` branch is unreachable by
`generate_ast_shapes`. -/
def app_pipeline (analyze : PyNode → List CodeIssue)
    (parse : String → Except ParseError PyNode) (code_snippet : String) :
    Except String (List CodeIssue) :=
  match generate_ast_from_code parse code_snippet with
  | (_, some error) => Except.error error
  | (some ast_tree, none) => Except.ok (analyze ast_tree)
  | (none, none) => Except.error ""

/-- A stand-in for `ast.parse` used to instantiate the parser theorems on
concrete inputs: it rejects the spec's example of invalid source at line 1
and parses everything else to an empty module. -/
def parseStub : String → Except ParseError PyNode := fun s =>
  if s = "def f(:" then Except.error { lineno := 1 }
  else Except.ok (.other ("Module") [])

/-- A JSON value, as far as the formatter's output shape needs. -/
inductive JsonValue : Type where
  | jnum (n : Int)
  | jstr (s : String)
  | jarr (items : List JsonValue)
  | jobj (fields : List (String × JsonValue))

/-- `dataclasses.asdict` on a `CodeIssue`: the field map in declaration
order. -/
def asdict (issue : CodeIssue) : List (String × JsonValue) :=
  [("line_number", .jnum issue.line_number),
   ("issue_code", .jstr issue.issue_code),
   ("description", .jstr issue.description)]

/-- `format_issues_to_json` from `formatter.py:18`, at the JSON-value
level: the list of per-issue dicts handed to `json.dumps`.  The string
rendering `json.dumps(..., indent=2)` and its inverse `json.loads` are the
standard library's faithful JSON value↔text correspondence, so
round-tripping is settled on JSON values. -/
def format_issues_to_json (issues : List CodeIssue) : JsonValue :=
  .jarr (issues.map fun issue => .jobj (asdict issue))

/-- Modelled from the spec: deserializing one issue object — reading the
three fields back off a parsed JSON object.  The repository ships no
deserializer; the spec's round-trip property ("deserializing the JSON output
reproduces the same line numbers, codes, and descriptions") quantifies over
one, so this is its minimal faithful reading. -/
def decodeIssue : JsonValue → Option CodeIssue
  | .jobj [(k1, .jnum n), (k2, .jstr c), (k3, .jstr d)] =>
      if k1 = "line_number" ∧ k2 = "issue_code" ∧ k3 = "description" ∧ 0 ≤ n
      then some { line_number := n.toNat, issue_code := c, description := d }
      else none
  | _ => none

/-- Modelled from the spec: deserializing a list of issue objects in
order. -/
def decodeIssueList : List JsonValue → Option (List CodeIssue)
  | [] => some []
  | v :: vs =>
      match decodeIssue v, decodeIssueList vs with
      | some issue, some issues => some (issue :: issues)
      | _, _ => none

/-- Modelled from the spec: deserializing the serialized issue array. -/
def decodeIssues : JsonValue → Option (List CodeIssue)
  | .jarr items => decodeIssueList items
  | _ => none

/-- A process environment: `os.environ`/`os.getenv` as a partial map. -/
abbrev EnvMap : Type := String → Option String

/-- Python truthiness of an `os.getenv` result: `None` and the empty string
are falsy, every other string is truthy. -/
def truthy : Option String → Bool
  | none => false
  | some s => !s.isEmpty

/-- `os.environ[key] = value`. -/
def setEnv (env : EnvMap) (key value : String) : EnvMap :=
  fun k => if k = key then some value else env k

/-- `_ensure_google_api_key_from_gemini` from `ai_core.py:48`: when
`os.getenv("GOOGLE_API_KEY")` is falsy (unset or empty) and
`os.getenv("GEMINI_API_KEY")` is truthy (set and nonempty), mirror the
latter into the former; otherwise leave the environment alone. -/
def ensure_google_api_key_from_gemini (env : EnvMap) : EnvMap :=
  if !truthy (env ("GOOGLE_API_KEY")) && truthy (env ("GEMINI_API_KEY")) then
    match env ("GEMINI_API_KEY") with
    | some v => setEnv env ("GOOGLE_API_KEY") v
    | none => env
  else env

/-- The message of the `ValueError` raised by `configure_llm_service`. -/
def google_api_key_error : String :=
  "GOOGLE_API_KEY environment variable not set. Please check your .env file."

/-- The credential check of `configure_llm_service` (`ai_core.py:144`):
raise `ValueError` when `os.getenv("GOOGLE_API_KEY")` is falsy, otherwise
construct and return the client (modelled as plain success — the client
itself is an opaque external object). -/
def configure_llm_service (env : EnvMap) : Except String Unit :=
  if !truthy (env ("GOOGLE_API_KEY")) then Except.error google_api_key_error
  else Except.ok ()

/-- The state of one `run_analysis` call: the `ast_tree` argument and the
visitor's `self.issues`.  The Python traversal could in principle mutate the
tree it was handed; threading the tree through the state makes "the
traversal only reads the tree" a provable statement rather than a
convention. -/
structure AnalysisState : Type where
  tree : PyNode
  issues : List CodeIssue

mutual
/-- The visitor as a state transformer: each step appends to `issues` and
leaves `tree` untouched, mirroring that `visit_FunctionDef` and
`visit_Constant` only read `node` and append to `self.issues`. -/
def visitS : PyNode → AnalysisState → AnalysisState
  | .functionDef lineno name pre body post, s =>
      visitAllS post (visitAllS body (visitAllS pre
        (if body.length > 20
         then { s with
                  issues := s.issues ++ [funcTooLongIssue lineno name body.length] }
         else s)))
  | .constant lineno value, s =>
      if value.isinstanceIntFloat
      then { s with issues := s.issues ++ [magicNumberIssue lineno value] }
      else s
  | .other _ children, s => visitAllS children s

/-- State-transformer sweep over a child list (`generic_visit`). -/
def visitAllS : List PyNode → AnalysisState → AnalysisState
  | [], s => s
  | n :: ns, s => visitAllS ns (visitS n s)
end

/-- `run_analysis` as a state transformer: a fresh visitor (empty issue
list) over the given tree. -/
def run_analysisS (ast_tree : PyNode) : AnalysisState :=
  visitS ast_tree { tree := ast_tree, issues := [] }

/-- The parse of the spec's example source
`def f():\n    x = 1\n    y = 2`: a module holding one function `f` defined
at line 1 whose body is the two assignments `x = 1` (line 2) and `y = 2`
(line 3), each assigning an integer literal carried on its own line. -/
def treeC6 : PyNode :=
  .other ("Module")
    [.functionDef 1 ("f") [.other ("arguments") []]
      [.other ("Assign") [.other ("Name") [.other ("Store") []],
          .constant 2 (.pyInt 1)],
       .other ("Assign") [.other ("Name") [.other ("Store") []],
          .constant 3 (.pyInt 2)]] []]

/-- The parse of a module holding one function `f` at line 1 whose body is
21 `pass` statements: the spec's 21-statement example. -/
def treeC2 : PyNode :=
  .other ("Module")
    [.functionDef 1 ("f") [.other ("arguments") []]
      (List.replicate 21 (PyNode.other ("Pass") [])) []]

/-- An environment where `GOOGLE_API_KEY` is present but empty while
`GEMINI_API_KEY` holds a value: the configuration that separates "set" from
"truthy". -/
def envEmptyGoogle : EnvMap := fun k =>
  if k = "GOOGLE_API_KEY" then some ("")
  else if k = "GEMINI_API_KEY" then some ("gemini-key-value") else none

/-- An environment where only `GEMINI_API_KEY` is set. -/
def envOnlyGemini : EnvMap := fun k =>
  if k = "GEMINI_API_KEY" then some ("gemini-key-value") else none

/-- An environment where `GOOGLE_API_KEY` is present but empty and nothing
else is set. -/
def envGoogleEmptyOnly : EnvMap := fun k =>
  if k = "GOOGLE_API_KEY" then some ("") else none

/-- Sweeping a concatenated child list equals sweeping the parts in order,
so the `functionDef` case of `visit` is `generic_visit` on
`pre ++ body ++ post`. -/
theorem visitAll_concat (as bs : List PyNode) (issues : List CodeIssue) :
    visitAll (as ++ bs) issues = visitAll bs (visitAll as issues) := by
  induction as generalizing issues with
  | nil => simp [visitAll]
  | cons a as ih => simp [visitAll, ih]

mutual
/-- The accumulator-threading visitor appends exactly `issuesOf` the node. -/
theorem visit_eq : ∀ (n : PyNode) (issues : List CodeIssue),
    visit n issues = issues ++ issuesOf n
  | .functionDef lineno name pre body post, issues => by
      rw [show visit (PyNode.functionDef lineno name pre body post) issues
            = visitAll post (visitAll body (visitAll pre
                (if body.length > 20
                 then issues ++ [funcTooLongIssue lineno name body.length]
                 else issues))) from rfl,
          visitAll_eq pre, visitAll_eq body, visitAll_eq post]
      simp only [issuesOf]
      by_cases h : body.length > 20 <;> simp [h]
  | .constant lineno value, issues => by
      rw [show visit (PyNode.constant lineno value) issues
            = (if value.isinstanceIntFloat
               then issues ++ [magicNumberIssue lineno value]
               else issues) from rfl]
      simp only [issuesOf]
      by_cases h : value.isinstanceIntFloat <;> simp [h]
  | .other kind children, issues => by
      rw [show visit (PyNode.other kind children) issues
            = visitAll children issues from rfl,
          visitAll_eq children]
      simp only [issuesOf]

/-- List version of `visit_eq`. -/
theorem visitAll_eq : ∀ (ns : List PyNode) (issues : List CodeIssue),
    visitAll ns issues = issues ++ issuesOfList ns
  | [], issues => by simp [visitAll, issuesOfList]
  | n :: ns, issues => by
      rw [show visitAll (n :: ns) issues = visitAll ns (visit n issues) from rfl,
          visitAll_eq ns, visit_eq n]
      simp [issuesOfList]
end

/-- `run_analysis` is the pure issue computation. -/
theorem run_analysis_eq (t : PyNode) : run_analysis t = issuesOf t := by
  rw [run_analysis, visit_eq]
  simp

theorem preorderList_concat (as bs : List PyNode) :
    preorderList (as ++ bs) = preorderList as ++ preorderList bs := by
  induction as with
  | nil => simp [preorderList]
  | cons a as ih => simp [preorderList, ih]

/-- Every node heads its own pre-order listing, followed by its children's
listings. -/
theorem preorder_cons (n : PyNode) :
    preorder n = n :: preorderList (childNodes n) := by
  cases n <;> simp [preorder, childNodes, preorderList, preorderList_concat]

mutual
/-- `issuesOf` in terms of the pre-order node listing: each node contributes
its local issues at its pre-order position. -/
theorem issuesOf_flatMap : ∀ n : PyNode,
    issuesOf n = (preorder n).flatMap localIssues
  | .functionDef lineno name pre body post => by
      rw [show issuesOf (PyNode.functionDef lineno name pre body post)
            = (if body.length > 20
               then [funcTooLongIssue lineno name body.length] else []) ++
                (issuesOfList pre ++ issuesOfList body ++ issuesOfList post)
            from rfl,
          issuesOfList_flatMap pre, issuesOfList_flatMap body,
          issuesOfList_flatMap post]
      simp [preorder, localIssues, List.flatMap_append]
  | .constant lineno value => by
      simp [issuesOf, preorder, localIssues]
  | .other kind children => by
      rw [show issuesOf (PyNode.other kind children)
            = issuesOfList children from rfl,
          issuesOfList_flatMap children]
      simp [preorder, localIssues]

/-- List version of `issuesOf_flatMap`. -/
theorem issuesOfList_flatMap : ∀ ns : List PyNode,
    issuesOfList ns = (preorderList ns).flatMap localIssues
  | [] => by simp [issuesOfList, preorderList]
  | n :: ns => by
      rw [show issuesOfList (n :: ns) = issuesOf n ++ issuesOfList ns from rfl,
          issuesOf_flatMap n, issuesOfList_flatMap ns]
      simp [preorderList, List.flatMap_append]
end

/-- The result of `run_analysis` is the pre-order node listing flat-mapped
through each node's local rule checks. -/
theorem run_analysis_flatMap (t : PyNode) :
    run_analysis t = (preorder t).flatMap localIssues := by
  rw [run_analysis_eq, issuesOf_flatMap]

theorem mem_preorderList_of_mem {cs : List PyNode} {c n : PyNode}
    (hc : c ∈ cs) (hn : n ∈ preorder c) : n ∈ preorderList cs := by
  induction cs with
  | nil => cases hc
  | cons a as ih =>
      rw [show preorderList (a :: as) = preorder a ++ preorderList as from rfl]
      rcases List.mem_cons.mp hc with rfl | hc'
      · exact List.mem_append.mpr (Or.inl hn)
      · exact List.mem_append.mpr (Or.inr (ih hc'))

theorem mem_preorder_of_subnode {n t : PyNode} (h : Subnode n t) :
    n ∈ preorder t := by
  induction h with
  | refl => rw [preorder_cons]; exact List.mem_cons_self _ _
  | step hc _ ih =>
      rw [preorder_cons]
      exact List.mem_cons_of_mem _ (mem_preorderList_of_mem hc ih)

mutual
theorem subnode_of_mem_preorder : ∀ (t n : PyNode), n ∈ preorder t → Subnode n t
  | .functionDef lineno name pre body post, n, h => by
      rw [show preorder (PyNode.functionDef lineno name pre body post)
            = PyNode.functionDef lineno name pre body post ::
                (preorderList pre ++ preorderList body ++ preorderList post)
            from rfl] at h
      rcases List.mem_cons.mp h with rfl | h'
      · exact Subnode.refl _
      · rcases List.mem_append.mp h' with h2 | hpost
        · rcases List.mem_append.mp h2 with hpre | hbody
          · obtain ⟨c, hc, hsub⟩ := exists_subnode_of_mem_preorderList pre n hpre
            exact Subnode.step (by simp [childNodes, hc]) hsub
          · obtain ⟨c, hc, hsub⟩ := exists_subnode_of_mem_preorderList body n hbody
            exact Subnode.step (by simp [childNodes, hc]) hsub
        · obtain ⟨c, hc, hsub⟩ := exists_subnode_of_mem_preorderList post n hpost
          exact Subnode.step (by simp [childNodes, hc]) hsub
  | .constant lineno value, n, h => by
      rw [show preorder (PyNode.constant lineno value)
            = [PyNode.constant lineno value] from rfl] at h
      rcases List.mem_singleton.mp h with rfl
      exact Subnode.refl _
  | .other kind children, n, h => by
      rw [show preorder (PyNode.other kind children)
            = PyNode.other kind children :: preorderList children from rfl] at h
      rcases List.mem_cons.mp h with rfl | h'
      · exact Subnode.refl _
      · obtain ⟨c, hc, hsub⟩ := exists_subnode_of_mem_preorderList children n h'
        exact Subnode.step (by simp [childNodes, hc]) hsub

theorem exists_subnode_of_mem_preorderList :
    ∀ (cs : List PyNode) (n : PyNode), n ∈ preorderList cs →
      ∃ c ∈ cs, Subnode n c
  | c :: cs, n, h => by
      rw [show preorderList (c :: cs) = preorder c ++ preorderList cs from rfl] at h
      rcases List.mem_append.mp h with hc | hcs
      · exact ⟨c, List.mem_cons_self c cs, subnode_of_mem_preorder c n hc⟩
      · obtain ⟨d, hd, hsub⟩ := exists_subnode_of_mem_preorderList cs n hcs
        exact ⟨d, List.mem_cons_of_mem c hd, hsub⟩
end

/-- Filtering distributes over a flat map. -/
theorem filter_flatMap_local (p : CodeIssue → Bool) (l : List PyNode)
    (f : PyNode → List CodeIssue) :
    (l.flatMap f).filter p = l.flatMap fun n => (f n).filter p := by
  induction l with
  | nil => simp
  | cons a l ih => simp [List.flatMap_cons, List.filter_append, ih]

/-- A flat map whose pieces are empty or singletons is a `filterMap`. -/
theorem flatMap_eq_filterMap_of_toList (l : List PyNode)
    (g : PyNode → List CodeIssue) (f : PyNode → Option CodeIssue)
    (h : ∀ a, g a = (f a).toList) : l.flatMap g = l.filterMap f := by
  induction l with
  | nil => simp
  | cons a l ih =>
      rw [List.flatMap_cons, List.filterMap_cons, h a]
      cases hf : f a <;> simp [hf, ih]

mutual
/-- The state transformer leaves the tree alone and appends exactly what the
accumulator-threading visitor appends. -/
theorem visitS_eq : ∀ (n : PyNode) (s : AnalysisState),
    visitS n s = { tree := s.tree, issues := visit n s.issues }
  | .functionDef lineno name pre body post, s => by
      by_cases h : body.length > 20 <;>
        simp [visitS, visit, h, visitAllS_eq pre, visitAllS_eq body,
          visitAllS_eq post]
  | .constant lineno value, s => by
      by_cases h : value.isinstanceIntFloat <;> simp [visitS, visit, h]
  | .other kind children, s => by
      simp [visitS, visit, visitAllS_eq children]

/-- List version of `visitS_eq`. -/
theorem visitAllS_eq : ∀ (ns : List PyNode) (s : AnalysisState),
    visitAllS ns s = { tree := s.tree, issues := visitAll ns s.issues }
  | [], s => by simp [visitAllS, visitAll]
  | n :: ns, s => by
      rw [show visitAllS (n :: ns) s = visitAllS ns (visitS n s) from rfl,
          visitAllS_eq ns, visitS_eq n]
      simp [visitAll]
end

/-- Decoding one serialized issue object restores the issue. -/
theorem decodeIssue_asdict (issue : CodeIssue) :
    decodeIssue (.jobj (asdict issue)) = some issue := by
  simp [asdict, decodeIssue]

/-- C1, counterexample: on a literal constant node carrying the boolean
`True` — a non-numeric constant kind per the claim, which says no such
constant (including `True` and `False`) produces an issue — the detector
emits a "MAGIC_NUMBER" issue anyway, because Python's `bool` is a subclass
of `int` and so passes the `isinstance(node.value, (int, float))` test at
`analyzer.py:76`. -/
theorem C1_counterexample :
    run_analysis (.constant 5 (.pyBool true))
      = [{ line_number := 5
           issue_code := "MAGIC_NUMBER"
           description := "The constant 'True' is a magic number; consider defining it as a named constant." }] := by
  decide

/-- C1 (amended): for every literal constant node whose value is an `int` or
`float` instance — which, `bool` being a subclass of `int` in Python,
includes `True` and `False` — the detector emits exactly one "MAGIC_NUMBER"
issue whose line number is that literal's line and whose description names
the literal value; constants of every other kind (strings, complex numbers,
bytes, `None`, `Ellipsis`) produce none.  Stated as: the "MAGIC_NUMBER"
sublist of the result is exactly the pre-order list of such literals mapped
to their issues, so N such literal occurrences yield exactly N
"MAGIC_NUMBER" issues. -/
theorem C1_magic_number_rule (t : PyNode) :
    (run_analysis t).filter (fun i => i.issue_code == "MAGIC_NUMBER")
      = (numericConstants t).map fun p => magicNumberIssue p.1 p.2 := by
  rw [run_analysis_flatMap, filter_flatMap_local, numericConstants,
      List.map_filterMap]
  refine flatMap_eq_filterMap_of_toList _ _ _ fun n => ?_
  cases n with
  | functionDef lineno name pre body post =>
      by_cases h : body.length > 20 <;>
        simp [localIssues, h, funcTooLongIssue, List.filter]
  | constant lineno value =>
      by_cases h : value.isinstanceIntFloat <;>
        simp [localIssues, h, magicNumberIssue, List.filter]
  | other kind children => simp [localIssues]

/-- C2: for every function definition node, if and only if the count of
immediate statements in its body exceeds 20, the detector emits exactly one
"FUNC_TOO_LONG" issue whose line number is the function's starting line and
whose description names the function and its statement count — stated as:
the "FUNC_TOO_LONG" sublist of the result is exactly the pre-order list of
function definitions whose statement count exceeds 20, mapped to their
issues.  In particular (second conjunct) a function with 21 top-level
statements yields exactly one such issue naming that function and the
count 21. -/
theorem C2_function_length_rule :
    (∀ t : PyNode,
      (run_analysis t).filter (fun i => i.issue_code == "FUNC_TOO_LONG")
        = (functionDefs t).filterMap fun r =>
            if r.2.2 > 20 then some (funcTooLongIssue r.1 r.2.1 r.2.2)
            else none)
    ∧ run_analysis treeC2 = [funcTooLongIssue 1 ("f") 21] := by
  constructor
  · intro t
    rw [run_analysis_flatMap, filter_flatMap_local, functionDefs,
        List.filterMap_filterMap]
    refine flatMap_eq_filterMap_of_toList _ _ _ fun n => ?_
    cases n with
    | functionDef lineno name pre body post =>
        by_cases h : body.length > 20 <;>
          simp [localIssues, h, funcTooLongIssue, List.filter]
    | constant lineno value =>
        by_cases h : value.isinstanceIntFloat <;>
          simp [localIssues, h, magicNumberIssue, List.filter]
    | other kind children => simp [localIssues]
  · decide

/-- C3: the detector's traversal is depth-first pre-order and reaches every
node reachable from the root — the nodes reachable through child links are
exactly the nodes of the pre-order listing (first conjunct) — and the
emitted issue sequence follows that traversal order: the result is the
pre-order node listing flat-mapped through the per-node checks, so an
enclosing function's "FUNC_TOO_LONG" issue (contributed at its own pre-order
position, before its descendants') precedes every issue from nodes nested
inside it, and literals appear in structural order. -/
theorem C3_traversal_order (t : PyNode) :
    (∀ n : PyNode, Subnode n t ↔ n ∈ preorder t)
    ∧ run_analysis t = (preorder t).flatMap localIssues :=
  ⟨fun n => ⟨mem_preorder_of_subnode, subnode_of_mem_preorder t n⟩,
   run_analysis_flatMap t⟩

/-- C4: whenever `ast.parse` raises a syntax error, `generate_ast_from_code`
returns no tree together with an error message naming the offending line,
and the pipeline stops with that error before the detector runs — the
pipeline's result is the same `Except.error` for every analysis function
that could be plugged in, so `run_analysis` is never invoked; whenever
`ast.parse` succeeds, the function returns the tree and no error. -/
theorem C4_syntax_error_handling
    (parse : String → Except ParseError PyNode) (code : String) :
    (∀ e : ParseError, parse code = Except.error e →
      generate_ast_from_code parse code
          = (none, some ("Error: Invalid Python syntax at line " ++
              toString e.lineno))
      ∧ ∀ analyze : PyNode → List CodeIssue,
          app_pipeline analyze parse code
            = Except.error ("Error: Invalid Python syntax at line " ++
                toString e.lineno))
    ∧ ∀ t : PyNode, parse code = Except.ok t →
        generate_ast_from_code parse code = (some t, none) := by
  constructor
  · intro e he
    constructor
    · simp [generate_ast_from_code, he]
    · intro analyze
      simp [app_pipeline, generate_ast_from_code, he]
  · intro t ht
    simp [generate_ast_from_code, ht]

/-- C4, witness: on the spec's invalid source `def f(:` (rejected at line 1
by the `ast.parse` stand-in) the parser wrapper reports the line-1 message
and the pipeline halts with it; on a well-formed source the wrapper returns
the tree and no error. -/
theorem C4_witness :
    (generate_ast_from_code parseStub ("def f(:")
        = (none, some ("Error: Invalid Python syntax at line 1"))
      ∧ app_pipeline run_analysis parseStub ("def f(:")
          = Except.error ("Error: Invalid Python syntax at line 1"))
    ∧ generate_ast_from_code parseStub ("print(1)")
        = (some (.other ("Module") []), none) :=
  ⟨⟨((C4_syntax_error_handling parseStub ("def f(:")).1
        { lineno := 1 } (by rfl)).1,
    ((C4_syntax_error_handling parseStub ("def f(:")).1
        { lineno := 1 } (by rfl)).2 run_analysis⟩,
   (C4_syntax_error_handling parseStub ("print(1)")).2
      (.other ("Module") []) (by rfl)⟩

/-- C5: serializing any list of issue records with `format_issues_to_json`
and deserializing the result reproduces the same line numbers, issue codes
and descriptions in the same order — the decoder recovers the input list
exactly. -/
theorem C5_serialization_roundtrip (issues : List CodeIssue) :
    decodeIssues (format_issues_to_json issues) = some issues := by
  rw [format_issues_to_json,
      show decodeIssues (JsonValue.jarr (issues.map fun issue =>
          JsonValue.jobj (asdict issue)))
        = decodeIssueList (issues.map fun issue =>
          JsonValue.jobj (asdict issue)) from rfl]
  induction issues with
  | nil => simp [decodeIssueList]
  | cons i is ih => simp [decodeIssueList, decodeIssue_asdict, ih]

/-- C6: on the parse of `def f():\n    x = 1\n    y = 2` the detector emits
exactly two "MAGIC_NUMBER" issues, one at line 2 and one at line 3 (in that
order, for the literals `1` and `2`), and zero "FUNC_TOO_LONG" issues. -/
theorem C6_example_source :
    (run_analysis treeC6).filter (fun i => i.issue_code == "MAGIC_NUMBER")
        = [magicNumberIssue 2 (.pyInt 1), magicNumberIssue 3 (.pyInt 2)]
    ∧ (run_analysis treeC6).filter (fun i => i.issue_code == "FUNC_TOO_LONG")
        = [] := by
  decide

/-- C7: provided every line number in the parsed tree is positive (which the
source parse guarantees — CPython line numbers start at 1), every issue
record the detector produces has one of the two enumerated issue codes and a
positive line number taken from the tree. -/
theorem C7_issue_invariant (t : PyNode)
    (hpos : ∀ l ∈ treeLinenos t, 0 < l) :
    ∀ i ∈ run_analysis t,
      (i.issue_code = "FUNC_TOO_LONG" ∨ i.issue_code = "MAGIC_NUMBER")
      ∧ 0 < i.line_number ∧ i.line_number ∈ treeLinenos t := by
  intro i hi
  rw [run_analysis_flatMap] at hi
  obtain ⟨n, hn, hlocal⟩ := List.mem_flatMap.mp hi
  have hline : ∀ lineno : Nat, nodeLineno n = some lineno →
      0 < lineno ∧ lineno ∈ treeLinenos t := by
    intro lineno hl
    have hmem : lineno ∈ treeLinenos t :=
      List.mem_filterMap.mpr ⟨n, hn, hl⟩
    exact ⟨hpos lineno hmem, hmem⟩
  cases n with
  | functionDef lineno name pre body post =>
      by_cases h : body.length > 20
      · rw [show localIssues (PyNode.functionDef lineno name pre body post)
              = [funcTooLongIssue lineno name body.length]
              from by simp [localIssues, h]] at hlocal
        rcases List.mem_singleton.mp hlocal with rfl
        obtain ⟨hpos', hmem⟩ := hline lineno rfl
        exact ⟨Or.inl rfl, hpos', hmem⟩
      · rw [show localIssues (PyNode.functionDef lineno name pre body post)
              = [] from by simp [localIssues, h]] at hlocal
        cases hlocal
  | constant lineno value =>
      by_cases h : value.isinstanceIntFloat
      · rw [show localIssues (PyNode.constant lineno value)
              = [magicNumberIssue lineno value]
              from by simp [localIssues, h]] at hlocal
        rcases List.mem_singleton.mp hlocal with rfl
        obtain ⟨hpos', hmem⟩ := hline lineno rfl
        exact ⟨Or.inr rfl, hpos', hmem⟩
      · rw [show localIssues (PyNode.constant lineno value)
              = [] from by simp [localIssues, h]] at hlocal
        cases hlocal
  | other kind children =>
      rw [show localIssues (PyNode.other kind children) = [] from rfl] at hlocal
      cases hlocal

/-- C7, witness: on the example tree (all line numbers positive), the issue
the detector emits at line 2 has an enumerated code and a positive line
number found in the tree. -/
theorem C7_witness :
    ((magicNumberIssue 2 (.pyInt 1)).issue_code = "FUNC_TOO_LONG"
        ∨ (magicNumberIssue 2 (.pyInt 1)).issue_code = "MAGIC_NUMBER")
      ∧ 0 < (magicNumberIssue 2 (.pyInt 1)).line_number
      ∧ (magicNumberIssue 2 (.pyInt 1)).line_number ∈ treeLinenos treeC6 :=
  C7_issue_invariant treeC6 (by decide) (magicNumberIssue 2 (.pyInt 1))
    (by decide)

/-- C8, counterexample: with `GOOGLE_API_KEY` set to the empty string and
`GEMINI_API_KEY` set to a value, the fallback overwrites the already-set
`GOOGLE_API_KEY` — the code tests Python truthiness (`not os.getenv(...)`),
not presence — refuting "an already-set GOOGLE_API_KEY is never
overwritten"; and with `GOOGLE_API_KEY` set to the empty string and no
`GEMINI_API_KEY`, `GOOGLE_API_KEY` is still set after the fallback yet
`configure_llm_service` raises, refuting "raises if and only if
GOOGLE_API_KEY is not set after this fallback". -/
theorem C8_counterexample :
    (envEmptyGoogle ("GOOGLE_API_KEY")).isSome = true
    ∧ ensure_google_api_key_from_gemini envEmptyGoogle ("GOOGLE_API_KEY")
        = some ("gemini-key-value")
    ∧ (envGoogleEmptyOnly ("GOOGLE_API_KEY")).isSome = true
    ∧ ensure_google_api_key_from_gemini envGoogleEmptyOnly ("GOOGLE_API_KEY")
        = some ("")
    ∧ configure_llm_service (ensure_google_api_key_from_gemini envGoogleEmptyOnly)
        = Except.error google_api_key_error := by
  refine ⟨rfl, rfl, rfl, rfl, rfl⟩

/-- C8 (amended): the provider credential is supplied by `GOOGLE_API_KEY`
with `GEMINI_API_KEY` as fallback alias, under Python truthiness (an env
value counts as absent when unset or empty): when `GOOGLE_API_KEY` is truthy
the environment is left untouched; when it is falsy and `GEMINI_API_KEY` is
truthy, the latter's value is mirrored into `GOOGLE_API_KEY`; when
`GEMINI_API_KEY` is falsy nothing changes; and `configure_llm_service`
raises its `ValueError` if and only if `GOOGLE_API_KEY` is falsy after the
fallback. -/
theorem C8_env_key_fallback (env : EnvMap) :
    (truthy (env ("GOOGLE_API_KEY")) = true →
      ensure_google_api_key_from_gemini env = env)
    ∧ (truthy (env ("GOOGLE_API_KEY")) = false →
        truthy (env ("GEMINI_API_KEY")) = true →
        ensure_google_api_key_from_gemini env ("GOOGLE_API_KEY")
          = env ("GEMINI_API_KEY"))
    ∧ (truthy (env ("GEMINI_API_KEY")) = false →
        ensure_google_api_key_from_gemini env = env)
    ∧ (configure_llm_service (ensure_google_api_key_from_gemini env)
          = Except.error google_api_key_error
        ↔ truthy (ensure_google_api_key_from_gemini env ("GOOGLE_API_KEY"))
            = false) := by
  refine ⟨?_, ?_, ?_, ?_⟩
  · intro hg
    simp [ensure_google_api_key_from_gemini, hg]
  · intro hg hm
    cases hgem : env ("GEMINI_API_KEY") with
    | none => rw [hgem] at hm; simp [truthy] at hm
    | some v =>
        have hv : truthy (some v) = true := by rw [hgem] at hm; exact hm
        simp [ensure_google_api_key_from_gemini, hg, hgem, hv, setEnv]
  · intro hm
    simp [ensure_google_api_key_from_gemini, hm]
  · by_cases ht : truthy (ensure_google_api_key_from_gemini env
        ("GOOGLE_API_KEY")) <;>
      simp [configure_llm_service, ht]

/-- C8, witness: with only `GEMINI_API_KEY` set, its value is mirrored into
`GOOGLE_API_KEY`, and the raise-iff-falsy equivalence holds for the
resulting environment. -/
theorem C8_witness :
    ensure_google_api_key_from_gemini envOnlyGemini ("GOOGLE_API_KEY")
        = envOnlyGemini ("GEMINI_API_KEY")
    ∧ (configure_llm_service (ensure_google_api_key_from_gemini envOnlyGemini)
          = Except.error google_api_key_error
        ↔ truthy (ensure_google_api_key_from_gemini envOnlyGemini
            ("GOOGLE_API_KEY")) = false) :=
  ⟨(C8_env_key_fallback envOnlyGemini).2.1 (by decide) (by decide),
   (C8_env_key_fallback envOnlyGemini).2.2.2⟩

/-- C9: for every parse behavior and input string,
`generate_ast_from_code` returns exactly one of the two shapes
`(some tree, none)` or `(none, some message)` — never both components
present and never both absent; being a total function into pairs, it raises
nothing to its caller (the `SyntaxError` of `ast.parse` is consumed by its
handler). -/
theorem C9_parser_result_shape
    (parse : String → Except ParseError PyNode) (code : String) :
    (∃ t, generate_ast_from_code parse code = (some t, none))
    ∨ ∃ msg, generate_ast_from_code parse code = (none, some msg) := by
  cases h : parse code with
  | ok t => exact Or.inl ⟨t, by simp [generate_ast_from_code, h]⟩
  | error e =>
      exact Or.inr ⟨"Error: Invalid Python syntax at line " ++ toString e.lineno,
        by simp [generate_ast_from_code, h]⟩

/-- C10: `run_analysis` leaves its input syntax tree unchanged — the
traversal, run as a state transformer over the tree and the issue
accumulator, returns the very tree it was given — and a second run on the
tree left by the first returns the same issue list; the collected issues are
exactly the pure `run_analysis` result. -/
theorem C10_analysis_pure (t : PyNode) :
    (run_analysisS t).tree = t
    ∧ (run_analysisS ((run_analysisS t).tree)).issues = (run_analysisS t).issues
    ∧ (run_analysisS t).issues = run_analysis t := by
  simp [run_analysisS, visitS_eq, run_analysis]

end CognitCode
